import Mathlib

/-!
Verification of the gobpf core against its specification.

The Go sources embedded here are src/bcc/table.go (map tables, the table
iterator, stack-trace extraction) and the symbol-resolution file
(Symbolizer, the module symbol cache, bccResolveName).  External
collaborators — the kernel map syscalls, the bcc symbol resolver, the
possible-CPU probe — are modelled as explicit oracle parameters, and every
externally visible side effect (deletes issued, kernel calls made, resolver
handles created and freed) is returned as data so that theorems can speak
about it.
-/

namespace Gobpf

/-! ## Stack-trace extraction: Table.GetStackAddr / Table.ClearStackId

From src/bcc/table.go.  The kernel stack-trace map is modelled as a lookup
oracle from stack id to the stored 127-entry instruction-pointer array
(GetP either returns the leaf or fails).  GetStackAddr is embedded to
return both its result and the list of stack ids it passed to Remove, so
that "performs no delete call" is a statement about the embedding. -/

/-- Kernel model of the stack-trace map consulted by Table.GetP: a stack id
either has a stored ip array (the struct stacktrace_t leaf) or the lookup
fails. -/
structure StackKernel where
  lookup : Int → Option (List Nat)

/-- The read loop of GetStackAddr: `for i := 0; i < 127 && stack.ip[i] != 0; i++`
collects `ip[i]` until the depth bound or the first zero entry. -/
def stackPrefix : Nat → List Nat → List Nat
  | 0, _ => []
  | _ + 1, [] => []
  | n + 1, a :: rest => if a = 0 then [] else a :: stackPrefix n rest

/-- BPF_MAX_STACK_DEPTH from src/bcc/table.go. -/
def BPF_MAX_STACK_DEPTH : Nat := 127

/-- Embedding of Table.GetStackAddr.  Returns the decoded address sequence
together with the list of stack ids passed to Remove (the delete calls
issued).  Faithful to the source: only `stackId < 0` is filtered out; a
failed GetP returns the (empty) result without deleting; on a successful
read the id is removed exactly when `clear` is set. -/
def getStackAddr (k : StackKernel) (stackId : Int) (clear : Bool) :
    List Nat × List Int :=
  if stackId < 0 then ([], [])
  else
    match k.lookup stackId with
    | none => ([], [])
    | some stack =>
        (stackPrefix BPF_MAX_STACK_DEPTH stack,
         if clear then [stackId] else [])

/-- Embedding of Table.ClearStackId: deletes the id only when it is
strictly positive.  Returns the delete calls issued. -/
def clearStackId (stackId : Int) : List Int :=
  if stackId > 0 then [stackId] else []

/-- A concrete kernel state for the stack map: stack id 0 holds a stored
stack whose ip array starts 170, 187 and is zero afterwards; every other
id fails to look up. -/
def stackKernel0 : StackKernel :=
  ⟨fun i => if i = 0 then some (170 :: 187 :: List.replicate 125 0) else none⟩

/-- A concrete kernel state where stack id 1 holds a stored stack [5, 0, ...]. -/
def stackKernelW : StackKernel :=
  ⟨fun i => if i = 1 then some (5 :: List.replicate 126 0) else none⟩

end Gobpf

/-- C1 counterexample: at stack id 0 (which the claim covers, `<= 0`) with
clear = true, GetStackAddr does perform the lookup: in a kernel state where
id 0 holds a stored stack it returns a non-empty sequence and issues a
delete call for id 0, contradicting both halves of the claim. -/
theorem c1_counterexample :
    Gobpf.getStackAddr Gobpf.stackKernel0 0 true = ([170, 187], [0]) ∧
    ¬ ((Gobpf.getStackAddr Gobpf.stackKernel0 0 true).1 = [] ∧
       (Gobpf.getStackAddr Gobpf.stackKernel0 0 true).2 = []) := by
  constructor
  · rfl
  · intro h
    simp only [Gobpf.getStackAddr] at h
    revert h
    decide

/-- C1 (amended): for every stack id strictly below zero, GetStackAddr
returns an empty sequence and performs no delete call, for every kernel
state and for both values of the clear flag. -/
theorem c1_amended (k : Gobpf.StackKernel) (stackId : Int) (clear : Bool)
    (h : stackId < 0) :
    Gobpf.getStackAddr k stackId clear = ([], []) := by
  simp [Gobpf.getStackAddr, h]

/-- Witness for c1_amended at stack id -1. -/
theorem c1_amended_witness :
    (-1 : Int) < 0 ∧
    Gobpf.getStackAddr Gobpf.stackKernel0 (-1) true = ([], []) :=
  ⟨by decide, c1_amended Gobpf.stackKernel0 (-1) true (by decide)⟩

/-- C2 counterexample: at stack id 1 (> 0) with clear = true, in a kernel
state where the Get of the leaf fails, GetStackAddr issues no delete call,
contradicting the claim that a Delete is issued "in every case, including
when the Get of the leaf fails". -/
theorem c2_counterexample :
    Gobpf.stackKernel0.lookup 1 = none ∧
    (Gobpf.getStackAddr Gobpf.stackKernel0 1 true).2 = [] := by
  constructor
  · rfl
  · rfl

/-- C2 (amended): for every stack id greater than zero, calling GetStackAddr
with clear = true issues the Delete for that id exactly when the Get of the
leaf succeeds; when the Get fails the function returns early with no delete
call. -/
theorem c2_amended (k : Gobpf.StackKernel) (stackId : Int) (h : 0 < stackId) :
    (∀ stack, k.lookup stackId = some stack →
        (Gobpf.getStackAddr k stackId true).2 = [stackId]) ∧
    (k.lookup stackId = none →
        (Gobpf.getStackAddr k stackId true).2 = []) := by
  have hneg : ¬ stackId < 0 := by omega
  constructor
  · intro stack hs
    simp [Gobpf.getStackAddr, hneg, hs]
  · intro hn
    simp [Gobpf.getStackAddr, hneg, hn]

/-- Witness for c2_amended at stack id 1 with a kernel state where the
read succeeds: the delete is issued. -/
theorem c2_amended_witness :
    (0 : Int) < 1 ∧
    (Gobpf.getStackAddr Gobpf.stackKernelW 1 true).2 = [1] :=
  ⟨by decide, (c2_amended Gobpf.stackKernelW 1 (by decide)).1 _ rfl⟩

namespace Gobpf

/-! ## Symbolizer: SymbolOrAddrIfUnknown and its format helpers

From the symbol-resolution source file.  Go's fmt verbs `%016x` and `%08x`
(lowercase hex, zero-padded to the width, never truncated) are embedded as
goHex.  The bcc resolver call bcc_symcache_resolve is modelled as an oracle
returning the status code and the filled bcc_symbol struct. -/

/-- Lowercase hexadecimal digit character for a value below 16. -/
def hexChar (d : Nat) : Char :=
  if d < 10 then Char.ofNat (48 + d) else Char.ofNat (87 + d)

/-- Numeric value of a lowercase hexadecimal digit character. -/
def hexVal (c : Char) : Nat :=
  if 97 ≤ c.toNat then c.toNat - 87 else c.toNat - 48

/-- The sixteen lowercase hexadecimal digit characters. -/
def lowercaseHexDigits : List Char := "0123456789abcdef".toList

/-- Hex digits of n, most significant first, by fuelled division. -/
def toHexAux : Nat → Nat → List Char
  | 0, _ => []
  | fuel + 1, n =>
    if n = 0 then []
    else toHexAux fuel (n / 16) ++ [hexChar (n % 16)]

/-- Hex digits of n, most significant first (empty for 0). -/
def toHexChars (n : Nat) : List Char := toHexAux n n

/-- Go fmt's %0wx applied to a nonnegative integer: the lowercase hex
digits, zero-padded on the left to width w ("0" itself for zero), never
truncated for values needing more than w digits. -/
def goHex (w : Nat) (n : Nat) : List Char :=
  let ds := if n = 0 then ['0'] else toHexChars n
  List.replicate (w - ds.length) '0' ++ ds

/-- Value denoted by a string of hex digit characters, most significant
first. -/
def decodeHex (l : List Char) : Nat :=
  l.foldl (fun a c => 16 * a + hexVal c) 0

/-- The filled bcc_symbol struct, as consumed by SymbolOrAddrIfUnknown. -/
structure BccSymbol where
  demangle_name : String
  module : String
  offset : Nat

/-- Oracle for bcc_symcache_resolve through the per-pid cache obtained by
getBCCSymbolCache: for a pid and address, the returned status code and the
struct contents it leaves behind. -/
structure AddrResolver where
  resolve : Int → Nat → Int × BccSymbol

/-- Embedding of Symbolizer.formatAddress: fmt.Sprintf("0x%016x", addr). -/
def formatAddress (addr : Nat) : String :=
  "0x" ++ String.mk (goHex 16 addr)

/-- Embedding of Symbolizer.formatModuleName:
fmt.Sprintf("[m] %s + 0x%08x", module, offset). -/
def formatModuleName (module : String) (offset : Nat) : String :=
  "[m] " ++ module ++ " + 0x" ++ String.mk (goHex 8 offset)

/-- Embedding of Symbolizer.SymbolOrAddrIfUnknown: resolve the address via
the per-pid cache; status 0 yields the demangled name, a non-empty module
in the struct yields the module format, anything else the raw-address
format. -/
def symbolOrAddrIfUnknown (r : AddrResolver) (pid : Int) (addr : Nat) : String :=
  let res := r.resolve pid addr
  if res.1 = 0 then res.2.demangle_name
  else if res.2.module ≠ "" then formatModuleName res.2.module res.2.offset
  else formatAddress addr

/-- A concrete resolver: address 1 resolves to a function, address 2 only
to a module at offset 255, address 3 to nothing. -/
def resolverW : AddrResolver :=
  ⟨fun _ a =>
    if a = 1 then (0, ⟨"main.run", "", 0⟩)
    else if a = 2 then (-1, ⟨"", "/lib/x.so", 255⟩)
    else (-1, ⟨"", "", 0⟩)⟩

theorem hexVal_hexChar : ∀ d < 16, hexVal (hexChar d) = d := by decide

theorem hexChar_mem_digits : ∀ d < 16, hexChar d ∈ lowercaseHexDigits := by decide

theorem decodeHex_foldl (b : List Char) (s : Nat) :
    b.foldl (fun a c => 16 * a + hexVal c) s = s * 16 ^ b.length + decodeHex b := by
  induction b generalizing s with
  | nil => simp [decodeHex]
  | cons c b ih =>
      simp only [List.foldl_cons, List.length_cons, decodeHex] at *
      rw [ih, ih (16 * 0 + hexVal c)]
      ring

theorem decodeHex_append (a b : List Char) :
    decodeHex (a ++ b) = decodeHex a * 16 ^ b.length + decodeHex b := by
  simp only [decodeHex, List.foldl_append]
  exact decodeHex_foldl b (decodeHex a)

theorem decodeHex_replicate_zero (k : Nat) :
    decodeHex (List.replicate k '0') = 0 := by
  induction k with
  | zero => rfl
  | succ k ih =>
      have h0 : hexVal '0' = 0 := by decide
      simpa [List.replicate_succ, decodeHex, h0] using ih

theorem decodeHex_toHexAux (fuel n : Nat) (h : n ≤ fuel) :
    decodeHex (toHexAux fuel n) = n := by
  induction fuel generalizing n with
  | zero =>
      have : n = 0 := Nat.le_zero.mp h
      simp [toHexAux, this, decodeHex]
  | succ fuel ih =>
      by_cases hn : n = 0
      · simp [toHexAux, hn, decodeHex]
      · have hdiv : n / 16 ≤ fuel := by
          have : n / 16 < n := Nat.div_lt_self (Nat.pos_of_ne_zero hn) (by norm_num)
          omega
        have hmod : n % 16 < 16 := Nat.mod_lt _ (by norm_num)
        simp only [toHexAux, hn, if_false]
        rw [decodeHex_append, ih _ hdiv]
        have : decodeHex [hexChar (n % 16)] = hexVal (hexChar (n % 16)) := by
          simp [decodeHex]
        rw [this, hexVal_hexChar _ hmod]
        simp only [List.length_singleton, pow_one]
        omega

theorem decodeHex_goHex (w n : Nat) : decodeHex (goHex w n) = n := by
  by_cases hn : n = 0
  · simp only [goHex, hn, if_true]
    rw [decodeHex_append, decodeHex_replicate_zero]
    decide
  · simp only [goHex, hn, if_false]
    rw [decodeHex_append, decodeHex_replicate_zero, toHexChars,
      decodeHex_toHexAux n n le_rfl]
    ring

theorem goHex_length_ge (w n : Nat) : w ≤ (goHex w n).length := by
  simp only [goHex, List.length_append, List.length_replicate]
  omega

theorem toHexAux_length_le (fuel n w : Nat) (h : n ≤ fuel) (hw : n < 16 ^ w) :
    (toHexAux fuel n).length ≤ w := by
  induction fuel generalizing n w with
  | zero => simp [toHexAux]
  | succ fuel ih =>
      by_cases hn : n = 0
      · simp [toHexAux, hn]
      · have hwpos : w ≠ 0 := by
          intro h0
          rw [h0, pow_zero] at hw
          omega
        have hdiv : n / 16 ≤ fuel := by
          have : n / 16 < n := Nat.div_lt_self (Nat.pos_of_ne_zero hn) (by norm_num)
          omega
        have hdivlt : n / 16 < 16 ^ (w - 1) := by
          have h16 : (0 : Nat) < 16 := by norm_num
          rw [Nat.div_lt_iff_lt_mul h16]
          calc n < 16 ^ w := hw
            _ = 16 ^ (w - 1) * 16 := by
                rw [← pow_succ]
                congr 1
                omega
        simp only [toHexAux, hn, if_false, List.length_append,
          List.length_singleton]
        have := ih (n / 16) (w - 1) hdiv hdivlt
        omega

theorem goHex_length_eq (w n : Nat) (hw : 1 ≤ w) (h : n < 16 ^ w) :
    (goHex w n).length = w := by
  by_cases hn : n = 0
  · simp only [goHex, hn, if_true, List.length_append, List.length_replicate,
      List.length_singleton]
    omega
  · have hlen : (toHexChars n).length ≤ w := toHexAux_length_le n n w le_rfl h
    simp only [goHex, hn, if_false, List.length_append, List.length_replicate]
    omega

theorem toHexAux_mem (fuel n : Nat) :
    ∀ c ∈ toHexAux fuel n, c ∈ lowercaseHexDigits := by
  induction fuel generalizing n with
  | zero => simp [toHexAux]
  | succ fuel ih =>
      by_cases hn : n = 0
      · simp [toHexAux, hn]
      · intro c hc
        simp only [toHexAux, hn, if_false, List.mem_append,
          List.mem_singleton] at hc
        rcases hc with hc | hc
        · exact ih _ c hc
        · rw [hc]
          exact hexChar_mem_digits _ (Nat.mod_lt _ (by norm_num))

theorem goHex_mem (w n : Nat) : ∀ c ∈ goHex w n, c ∈ lowercaseHexDigits := by
  intro c hc
  simp only [goHex, List.mem_append, List.mem_replicate] at hc
  rcases hc with hc | hc
  · rw [hc.2]; decide
  · by_cases hn : n = 0
    · rw [hn] at hc
      simp only [if_true] at hc
      rcases List.mem_singleton.mp hc with h
      rw [h]; decide
    · rw [if_neg hn] at hc
      exact toHexAux_mem n n c hc

end Gobpf

/-- C4: SymbolOrAddrIfUnknown returns, in priority order, the demangled
name on a direct resolver match; otherwise the string
"[m] module + 0x%08x" when the struct names a containing module, with the
offset rendered as zero-padded lowercase hex of width at least 8 (exactly 8
when the offset fits) denoting the offset; otherwise the raw address as
"0x%016x", zero-padded lowercase hex of width at least 16 (exactly 16 when
the address fits) denoting the address. -/
theorem c4_resolve_format (r : Gobpf.AddrResolver) (pid : Int) (addr : Nat) :
    ((r.resolve pid addr).1 = 0 →
      Gobpf.symbolOrAddrIfUnknown r pid addr =
        (r.resolve pid addr).2.demangle_name) ∧
    ((r.resolve pid addr).1 ≠ 0 → (r.resolve pid addr).2.module ≠ "" →
      Gobpf.symbolOrAddrIfUnknown r pid addr =
        "[m] " ++ (r.resolve pid addr).2.module ++ " + 0x" ++
          String.mk (Gobpf.goHex 8 (r.resolve pid addr).2.offset) ∧
      Gobpf.decodeHex (Gobpf.goHex 8 (r.resolve pid addr).2.offset) =
        (r.resolve pid addr).2.offset ∧
      8 ≤ (Gobpf.goHex 8 (r.resolve pid addr).2.offset).length ∧
      ((r.resolve pid addr).2.offset < 16 ^ 8 →
        (Gobpf.goHex 8 (r.resolve pid addr).2.offset).length = 8) ∧
      (∀ c ∈ Gobpf.goHex 8 (r.resolve pid addr).2.offset,
        c ∈ Gobpf.lowercaseHexDigits)) ∧
    ((r.resolve pid addr).1 ≠ 0 → (r.resolve pid addr).2.module = "" →
      Gobpf.symbolOrAddrIfUnknown r pid addr =
        "0x" ++ String.mk (Gobpf.goHex 16 addr) ∧
      Gobpf.decodeHex (Gobpf.goHex 16 addr) = addr ∧
      16 ≤ (Gobpf.goHex 16 addr).length ∧
      (addr < 16 ^ 16 → (Gobpf.goHex 16 addr).length = 16) ∧
      (∀ c ∈ Gobpf.goHex 16 addr, c ∈ Gobpf.lowercaseHexDigits)) := by
  refine ⟨fun h0 => ?_, fun h0 hm => ?_, fun h0 hm => ?_⟩
  · simp [Gobpf.symbolOrAddrIfUnknown, h0]
  · refine ⟨?_, Gobpf.decodeHex_goHex 8 _, Gobpf.goHex_length_ge 8 _,
      fun hlt => Gobpf.goHex_length_eq 8 _ (by norm_num) hlt,
      Gobpf.goHex_mem 8 _⟩
    simp [Gobpf.symbolOrAddrIfUnknown, h0, hm, Gobpf.formatModuleName]
  · refine ⟨?_, Gobpf.decodeHex_goHex 16 _, Gobpf.goHex_length_ge 16 _,
      fun hlt => Gobpf.goHex_length_eq 16 _ (by norm_num) hlt,
      Gobpf.goHex_mem 16 _⟩
    simp [Gobpf.symbolOrAddrIfUnknown, h0, hm, Gobpf.formatAddress]

/-- Witness for c4_resolve_format on a concrete resolver, exercising all
three formats. -/
theorem c4_resolve_format_witness :
    Gobpf.symbolOrAddrIfUnknown Gobpf.resolverW 7 1 = "main.run" ∧
    Gobpf.symbolOrAddrIfUnknown Gobpf.resolverW 7 2 = "[m] /lib/x.so + 0x000000ff" ∧
    Gobpf.symbolOrAddrIfUnknown Gobpf.resolverW 7 3 = "0x0000000000000003" := by
  refine ⟨(c4_resolve_format Gobpf.resolverW 7 1).1 (by decide), ?_, ?_⟩
  · have h := ((c4_resolve_format Gobpf.resolverW 7 2).2.1 (by decide) (by decide)).1
    rw [h]; rfl
  · have h := ((c4_resolve_format Gobpf.resolverW 7 3).2.2 (by decide) (by decide)).1
    rw [h]; rfl

namespace Gobpf

/-! ## bccResolveName

From the symbol-resolution source file.  The function creates a resolver
cache with bcc_symcache_new, defers bcc_free_symcache, and calls
bcc_symcache_resolve_name with the address of the local C cell addrC —
which was initialised from the Go variable addr (zero) and into which the
resolver writes the result.  The function then returns the Go variable
addr, which is never updated from addrC. -/

/-- Oracle for bcc_symcache_resolve_name on a cache freshly created by
bcc_symcache_new: given module, symbol name, and the value initially in
the addr cell, the status code it returns together with the value it
leaves in the cell. -/
structure NameResolveEnv where
  resolveName : String → String → Nat → Int × Nat

/-- Resolver handles created and freed during one call. -/
structure HandleTrace where
  created : Nat
  freed : Nat
deriving DecidableEq

/-- Embedding of bccResolveName.  One cache is created and, by the
deferred free, released on every return path.  The resolver leaves its
result in the addrC cell (the second component of the oracle's answer);
the source returns the stale Go variable addr instead, so the cell value
is dropped here exactly as it is dropped there. -/
def bccResolveName (env : NameResolveEnv) (module symname : String)
    (pid : Int) : HandleTrace × Except String Nat :=
  let addr : Nat := 0
  let r := env.resolveName module symname addr
  if r.1 < 0 then
    (⟨1, 1⟩,
     Except.error ("unable to locate symbol " ++ symname ++ " in module " ++ module))
  else
    (⟨1, 1⟩, Except.ok addr)

/-- A concrete resolver environment: every name resolves successfully and
the resolver writes address 4660 (0x1234) into the caller's cell. -/
def nameEnvBug : NameResolveEnv := ⟨fun _ _ _ => (0, 4660)⟩

end Gobpf

/-- C3 at a failing input: the resolver reports success and writes address
4660 into the caller's cell, a throw-away cache is created and released,
yet bccResolveName returns 0 — not the address the resolver produced.
The source drops the addrC cell written by bcc_symcache_resolve_name and
returns the never-updated Go variable addr. -/
theorem c3_resolve_name_bug :
    Gobpf.nameEnvBug.resolveName "/lib/x.so" "malloc" 0 = (0, 4660) ∧
    (Gobpf.bccResolveName Gobpf.nameEnvBug "/lib/x.so" "malloc" 42).2 =
      Except.ok 0 ∧
    ((Gobpf.bccResolveName Gobpf.nameEnvBug "/lib/x.so" "malloc" 42).2 ≠
      Except.ok 4660) ∧
    (Gobpf.bccResolveName Gobpf.nameEnvBug "/lib/x.so" "malloc" 42).1 =
      Gobpf.HandleTrace.mk 1 1 := by
  refine ⟨rfl, rfl, ?_, rfl⟩
  intro h
  simp [Gobpf.bccResolveName, Gobpf.nameEnvBug] at h

namespace Gobpf

/-! ## Table.KeyBytesToStr / Table.LeafBytesToStr

From src/bcc/table.go.  The external snprintf routines are oracles taking
the input bytes and the destination buffer size and returning the status
code and the bytes they leave in the buffer.  Go panics — indexing key[0]
on an empty slice, and slicing keyStr[:-1] when bytes.IndexByte finds no
zero byte — are a distinguished outcome. -/

/-- Outcome of a Go call: a normal value, an error return, or a runtime
panic. -/
inductive GoOutcome (α : Type) where
  | ok : α → GoOutcome α
  | err : String → GoOutcome α
  | panics : GoOutcome α
deriving DecidableEq

/-- bytes.IndexByte for byte value 0 (none for the -1 "not present" case). -/
def indexOfZero : List Nat → Option Nat
  | [] => none
  | b :: rest =>
    if b = 0 then some 0
    else (indexOfZero rest).map (· + 1)

/-- Embedding of Table.KeyBytesToStr: take the address of key[0] (panic on
an empty slice), let the external formatter fill a buffer of 8 times the
key length, fail on a nonzero status, otherwise return the bytes before
the first zero — a panic when there is none. -/
def keyBytesToStr (write : List Nat → Nat → Int × List Nat)
    (key : List Nat) : GoOutcome (List Nat) :=
  if key.length = 0 then GoOutcome.panics
  else
    let r := write key (key.length * 8)
    if r.1 ≠ 0 then GoOutcome.err "formatting table-key"
    else
      match indexOfZero r.2 with
      | none => GoOutcome.panics
      | some i => GoOutcome.ok (r.2.take i)

/-- Embedding of Table.LeafBytesToStr, identical in structure to
KeyBytesToStr with the leaf formatter. -/
def leafBytesToStr (write : List Nat → Nat → Int × List Nat)
    (leaf : List Nat) : GoOutcome (List Nat) :=
  if leaf.length = 0 then GoOutcome.panics
  else
    let r := write leaf (leaf.length * 8)
    if r.1 ≠ 0 then GoOutcome.err "formatting table-leaf"
    else
      match indexOfZero r.2 with
      | none => GoOutcome.panics
      | some i => GoOutcome.ok (r.2.take i)

theorem indexOfZero_eq_none (l : List Nat) (h : ¬ 0 ∈ l) :
    indexOfZero l = none := by
  induction l with
  | nil => rfl
  | cons b rest ih =>
      have hb : ¬ b = 0 := fun hb => h (by simp [hb])
      have hr : ¬ 0 ∈ rest := fun hr => h (by simp [hr])
      simp [indexOfZero, hb, ih hr]

theorem indexOfZero_isSome (l : List Nat) (h : 0 ∈ l) :
    ∃ i, indexOfZero l = some i := by
  induction l with
  | nil => simp at h
  | cons b rest ih =>
      by_cases hb : b = 0
      · exact ⟨0, by simp [indexOfZero, hb]⟩
      · have hr : 0 ∈ rest := by
          rcases List.mem_cons.mp h with h0 | h0
          · exact absurd h0.symm hb
          · exact h0
        obtain ⟨j, hj⟩ := ih hr
        exact ⟨j + 1, by simp [indexOfZero, hb, hj]⟩

theorem indexOfZero_take (l : List Nat) (i : Nat) (h : indexOfZero l = some i) :
    l.take i = l.takeWhile (fun b => b ≠ 0) := by
  induction l generalizing i with
  | nil => simp [indexOfZero] at h
  | cons b rest ih =>
      by_cases hb : b = 0
      · simp only [indexOfZero, hb, if_true, Option.some.injEq] at h
        subst h
        simp [List.takeWhile_cons, hb]
      · simp only [indexOfZero, hb, if_false, Option.map_eq_some'] at h
        obtain ⟨j, hj, hij⟩ := h
        subst hij
        simp [List.takeWhile_cons, hb, List.take_succ_cons, ih j hj]

end Gobpf

/-- C10: KeyBytesToStr and LeafBytesToStr return the bytes before the
first zero terminator when the input is non-empty and the formatter
succeeds leaving a terminator in the 8×length buffer; an empty input slice
panics (address of element 0), and a successfully formatted buffer with no
terminator panics (slice bound -1). -/
theorem c10_bytes_to_str (writeK writeL : List Nat → Nat → Int × List Nat)
    (key leaf : List Nat) :
    (key ≠ [] → (writeK key (key.length * 8)).1 = 0 →
      0 ∈ (writeK key (key.length * 8)).2 →
      Gobpf.keyBytesToStr writeK key =
        Gobpf.GoOutcome.ok
          ((writeK key (key.length * 8)).2.takeWhile (fun b => b ≠ 0))) ∧
    (Gobpf.keyBytesToStr writeK [] = Gobpf.GoOutcome.panics) ∧
    (key ≠ [] → (writeK key (key.length * 8)).1 = 0 →
      ¬ 0 ∈ (writeK key (key.length * 8)).2 →
      Gobpf.keyBytesToStr writeK key = Gobpf.GoOutcome.panics) ∧
    (leaf ≠ [] → (writeL leaf (leaf.length * 8)).1 = 0 →
      0 ∈ (writeL leaf (leaf.length * 8)).2 →
      Gobpf.leafBytesToStr writeL leaf =
        Gobpf.GoOutcome.ok
          ((writeL leaf (leaf.length * 8)).2.takeWhile (fun b => b ≠ 0))) ∧
    (Gobpf.leafBytesToStr writeL [] = Gobpf.GoOutcome.panics) ∧
    (leaf ≠ [] → (writeL leaf (leaf.length * 8)).1 = 0 →
      ¬ 0 ∈ (writeL leaf (leaf.length * 8)).2 →
      Gobpf.leafBytesToStr writeL leaf = Gobpf.GoOutcome.panics) := by
  have hkey : ∀ (w : List Nat → Nat → Int × List Nat) (k : List Nat),
      (k ≠ [] → (w k (k.length * 8)).1 = 0 → 0 ∈ (w k (k.length * 8)).2 →
        Gobpf.keyBytesToStr w k =
          Gobpf.GoOutcome.ok
            ((w k (k.length * 8)).2.takeWhile (fun b => b ≠ 0))) ∧
      (Gobpf.keyBytesToStr w [] = Gobpf.GoOutcome.panics) ∧
      (k ≠ [] → (w k (k.length * 8)).1 = 0 → ¬ 0 ∈ (w k (k.length * 8)).2 →
        Gobpf.keyBytesToStr w k = Gobpf.GoOutcome.panics) := by
    intro w k
    refine ⟨fun hne h0 hz => ?_, by simp [Gobpf.keyBytesToStr], fun hne h0 hz => ?_⟩
    · have hlen : ¬ k.length = 0 := by simpa [List.length_eq_zero] using hne
      obtain ⟨i, hi⟩ := Gobpf.indexOfZero_isSome _ hz
      simp only [Gobpf.keyBytesToStr, hlen, if_false, h0, ne_eq,
        not_true_eq_false, if_neg, not_false_eq_true, hi]
      rw [Gobpf.indexOfZero_take _ _ hi]
    · have hlen : ¬ k.length = 0 := by simpa [List.length_eq_zero] using hne
      have hn := Gobpf.indexOfZero_eq_none _ hz
      simp [Gobpf.keyBytesToStr, hlen, h0, hn]
  have hleaf : ∀ (w : List Nat → Nat → Int × List Nat) (k : List Nat),
      (k ≠ [] → (w k (k.length * 8)).1 = 0 → 0 ∈ (w k (k.length * 8)).2 →
        Gobpf.leafBytesToStr w k =
          Gobpf.GoOutcome.ok
            ((w k (k.length * 8)).2.takeWhile (fun b => b ≠ 0))) ∧
      (Gobpf.leafBytesToStr w [] = Gobpf.GoOutcome.panics) ∧
      (k ≠ [] → (w k (k.length * 8)).1 = 0 → ¬ 0 ∈ (w k (k.length * 8)).2 →
        Gobpf.leafBytesToStr w k = Gobpf.GoOutcome.panics) := by
    intro w k
    refine ⟨fun hne h0 hz => ?_, by simp [Gobpf.leafBytesToStr], fun hne h0 hz => ?_⟩
    · have hlen : ¬ k.length = 0 := by simpa [List.length_eq_zero] using hne
      obtain ⟨i, hi⟩ := Gobpf.indexOfZero_isSome _ hz
      simp only [Gobpf.leafBytesToStr, hlen, if_false, h0, ne_eq,
        not_true_eq_false, if_neg, not_false_eq_true, hi]
      rw [Gobpf.indexOfZero_take _ _ hi]
    · have hlen : ¬ k.length = 0 := by simpa [List.length_eq_zero] using hne
      have hn := Gobpf.indexOfZero_eq_none _ hz
      simp [Gobpf.leafBytesToStr, hlen, h0, hn]
  exact ⟨(hkey writeK key).1, (hkey writeK key).2.1, (hkey writeK key).2.2,
    (hleaf writeL leaf).1, (hleaf writeL leaf).2.1, (hleaf writeL leaf).2.2⟩

namespace Gobpf

/-- A concrete formatter: succeeds and leaves bytes 65, 66 followed by a
zero terminator in the destination buffer. -/
def writeW : List Nat → Nat → Int × List Nat :=
  fun _ n => (0, 65 :: 66 :: List.replicate (n - 2) 0)

end Gobpf

/-- Witness for c10_bytes_to_str on a concrete formatter and the one-byte
input 9. -/
theorem c10_bytes_to_str_witness :
    Gobpf.keyBytesToStr Gobpf.writeW [9] = Gobpf.GoOutcome.ok [65, 66] ∧
    Gobpf.leafBytesToStr Gobpf.writeW [9] = Gobpf.GoOutcome.ok [65, 66] := by
  constructor
  · have h := (c10_bytes_to_str Gobpf.writeW Gobpf.writeW [9] [9]).1
      (by decide) (by decide) (by decide)
    rw [h]; decide
  · have h := (c10_bytes_to_str Gobpf.writeW Gobpf.writeW [9] [9]).2.2.2.1
      (by decide) (by decide) (by decide)
    rw [h]; decide

namespace Gobpf

/-! ## MapTable: Table.Get / Table.Set

From src/bcc/table.go.  The kernel map behind bpf_lookup_elem and
bpf_update_elem is modelled as a descriptor plus a list of stored entries;
the possible-CPU probe cpupossible.Get, consulted by Get at call time for
the per-CPU kinds, is an Except parameter. -/

/-- BPF map kinds distinguished by the source's switch on
bpf_table_type_id. -/
inductive MapType where
  | hash
  | array
  | percpuHash
  | percpuArray
  | other
deriving DecidableEq

/-- The `case BPF_MAP_TYPE_PERCPU_HASH, BPF_MAP_TYPE_PERCPU_ARRAY` test. -/
def MapType.isPerCpu : MapType → Bool
  | .percpuHash => true
  | .percpuArray => true
  | _ => false

/-- The map properties read from the module handle. -/
structure MapDesc where
  keySize : Nat
  leafSize : Nat
  mapType : MapType
deriving DecidableEq

/-- Kernel map state: descriptor plus stored entries (later entries are
shadowed by earlier ones, so prepending replaces). -/
structure KernelMap where
  desc : MapDesc
  entries : List (List Nat × List Nat)

/-- Lookup of a key among the stored entries. -/
def lookupEntries : List (List Nat × List Nat) → List Nat → Option (List Nat)
  | [], _ => none
  | e :: rest, k => if e.1 = k then some e.2 else lookupEntries rest k

/-- Bytes the kernel stores per key: the descriptor leaf size, multiplied
by the possible-CPU count for the per-CPU kinds. -/
def storedSize (d : MapDesc) (ncpu : Nat) : Nat :=
  if d.mapType.isPerCpu then d.leafSize * ncpu else d.leafSize

/-- Modelled external kernel call bpf_update_elem with flags 0
(create-or-replace): stores the first value-size bytes of the caller's
buffer under the key. -/
def updateElem (m : KernelMap) (ncpu : Nat) (key leaf : List Nat) : KernelMap :=
  { m with entries := (key, leaf.take (storedSize m.desc ncpu)) :: m.entries }

/-- Kernel copy into a caller-allocated buffer: the stored bytes overwrite
the prefix, the remainder of the buffer is untouched. -/
def copyInto (buf src : List Nat) : List Nat :=
  src.take buf.length ++ buf.drop src.length

/-- Embedding of Table.Get: compute the buffer size (descriptor leaf size,
multiplied by the possible-CPU count queried at call time for the per-CPU
kinds, failing when the probe fails), allocate a zeroed buffer of that
size, and let bpf_lookup_elem fill it; a kernel miss is an error. -/
def tableGet (m : KernelMap) (getCpus : Except String Nat) (key : List Nat) :
    Except String (List Nat) :=
  let sizeE : Except String Nat :=
    if m.desc.mapType.isPerCpu then
      match getCpus with
      | Except.error e => Except.error ("get possible cpus: " ++ e)
      | Except.ok n => Except.ok (m.desc.leafSize * n)
    else Except.ok m.desc.leafSize
  match sizeE with
  | Except.error e => Except.error e
  | Except.ok sz =>
    match lookupEntries m.entries key with
    | none => Except.error "Table.Get: key not found"
    | some stored => Except.ok (copyInto (List.replicate sz 0) stored)

/-- Embedding of Table.Set: an unconditional bpf_update_elem with flags 0. -/
def tableSet (m : KernelMap) (ncpu : Nat) (key leaf : List Nat) : KernelMap :=
  updateElem m ncpu key leaf

/-- A concrete per-CPU map: key size 4, leaf size 2, no entries. -/
def mapW : KernelMap := ⟨⟨4, 2, MapType.percpuHash⟩, []⟩

end Gobpf

/-- C5: for a leaf of the size the kernel map stores (descriptor leaf size,
multiplied by the possible-CPU count for per-CPU kinds), a Set followed by
a Get of the same key returns exactly the bytes passed to Set, for every
map kind; and for per-CPU kinds the returned buffer's length is the
descriptor leaf size multiplied by the CPU count queried at the Get. -/
theorem c5_roundtrip (m : Gobpf.KernelMap) (ncpu : Nat) (key leaf : List Nat)
    (h : leaf.length = Gobpf.storedSize m.desc ncpu) :
    Gobpf.tableGet (Gobpf.tableSet m ncpu key leaf) (Except.ok ncpu) key =
      Except.ok leaf ∧
    (m.desc.mapType.isPerCpu = true →
      ∀ out,
        Gobpf.tableGet (Gobpf.tableSet m ncpu key leaf) (Except.ok ncpu) key =
          Except.ok out →
        out.length = m.desc.leafSize * ncpu) := by
  have htake : leaf.take (Gobpf.storedSize m.desc ncpu) = leaf := by
    rw [← h]
    exact List.take_length leaf
  have hlook :
      Gobpf.lookupEntries (Gobpf.tableSet m ncpu key leaf).entries key =
        some leaf := by
    simp [Gobpf.tableSet, Gobpf.updateElem, Gobpf.lookupEntries, htake]
  have hcopy :
      Gobpf.copyInto (List.replicate (Gobpf.storedSize m.desc ncpu) 0) leaf =
        leaf := by
    simp [Gobpf.copyInto, ← h]
  have hmain :
      Gobpf.tableGet (Gobpf.tableSet m ncpu key leaf) (Except.ok ncpu) key =
        Except.ok leaf := by
    have hdesc : (Gobpf.tableSet m ncpu key leaf).desc = m.desc := rfl
    cases hpc : m.desc.mapType.isPerCpu
    · have hsz : Gobpf.storedSize m.desc ncpu = m.desc.leafSize := by
        simp [Gobpf.storedSize, hpc]
      simp [Gobpf.tableGet, hdesc, hpc, hlook, ← hsz, hcopy]
    · have hsz : Gobpf.storedSize m.desc ncpu = m.desc.leafSize * ncpu := by
        simp [Gobpf.storedSize, hpc]
      simp [Gobpf.tableGet, hdesc, hpc, hlook, ← hsz, hcopy]
  refine ⟨hmain, fun hpc out hout => ?_⟩
  rw [hmain] at hout
  have : out = leaf := by
    cases hout
    rfl
  rw [this, h, Gobpf.storedSize, hpc]
  simp

/-- Witness for c5_roundtrip on a concrete per-CPU map with 2 CPUs. -/
theorem c5_roundtrip_witness :
    ([9, 8, 7, 6] : List Nat).length = Gobpf.storedSize Gobpf.mapW.desc 2 ∧
    Gobpf.tableGet (Gobpf.tableSet Gobpf.mapW 2 [1, 2, 3, 4] [9, 8, 7, 6])
      (Except.ok 2) [1, 2, 3, 4] = Except.ok [9, 8, 7, 6] :=
  ⟨by decide,
   (c5_roundtrip Gobpf.mapW 2 [1, 2, 3, 4] [9, 8, 7, 6] (by decide)).1⟩

namespace Gobpf

/-! ## TableIterator

From src/bcc/table.go.  The kernel first-key / next-key / lookup protocol
is an oracle; errno values are modelled by KErr with os.IsNotExist true
exactly for ENOENT.  Go error values recorded in it.err are modelled by
GoErr, with iterationFailed standing for the errIterationFailed sentinel.
iterNext returns, besides the Bool and the new iterator state, the number
of kernel calls the invocation issued. -/

/-- Errno classes of a failed kernel call. -/
inductive KErr where
  | enoent
  | other (code : Nat)
deriving DecidableEq

/-- os.IsNotExist on the errno of a kernel call. -/
def isNotExist : KErr → Bool
  | .enoent => true
  | .other _ => false

/-- Go error values an iterator can record. -/
inductive GoErr where
  | iterationFailed
  | osErr (e : KErr)
  | cpuErr (msg : String)
deriving DecidableEq

/-- Kernel oracle for one iteration session. -/
structure IterKernel where
  desc : MapDesc
  getCpus : Except String Nat
  firstKey : Except KErr (List Nat)
  nextKey : List Nat → Except KErr (List Nat)
  lookup : List Nat → Except KErr (List Nat)

/-- The TableIterator struct: recorded error, current key buffer (nil
before the first Next), leaf buffer. -/
structure TableIterator where
  err : Option GoErr
  key : Option (List Nat)
  leaf : List Nat

/-- The common tail of Next: bpf_lookup_elem for the just-positioned key.
On failure the recorded error is errIterationFailed, overwritten by the
errno error unless os.IsNotExist holds for it. -/
def iterLookupStep (k : IterKernel) (it : TableIterator)
    (key leaf : List Nat) (calls : Nat) : Bool × TableIterator × Nat :=
  match k.lookup key with
  | Except.error e =>
      (false,
       { it with
          err := some (if isNotExist e then GoErr.iterationFailed
                       else GoErr.osErr e),
          key := some key, leaf := leaf },
       calls + 1)
  | Except.ok stored =>
      (true,
       { it with key := some key, leaf := copyInto leaf stored },
       calls + 1)

/-- Embedding of TableIterator.Next. -/
def iterNext (k : IterKernel) (it : TableIterator) :
    Bool × TableIterator × Nat :=
  match it.err with
  | some _ => (false, it, 0)
  | none =>
    match it.key with
    | none =>
        match k.firstKey with
        | Except.error e =>
            (false,
             { it with err := if isNotExist e then none
                              else some (GoErr.osErr e) },
             1)
        | Except.ok key0 =>
            if k.desc.mapType.isPerCpu then
              match k.getCpus with
              | Except.error msg =>
                  (false, { it with err := some (GoErr.cpuErr msg) }, 1)
              | Except.ok ncpu =>
                  iterLookupStep k it key0
                    (List.replicate (k.desc.leafSize * ncpu) 0) 1
            else
              iterLookupStep k it key0 (List.replicate k.desc.leafSize 0) 1
    | some curKey =>
        match k.nextKey curKey with
        | Except.error e =>
            (false,
             { it with err := if isNotExist e then none
                              else some (GoErr.osErr e) },
             1)
        | Except.ok key1 => iterLookupStep k it key1 it.leaf 1

/-- A kernel oracle for an empty map: every protocol call reports ENOENT. -/
def iterKernelEmpty : IterKernel :=
  ⟨⟨4, 4, MapType.hash⟩, Except.ok 1, Except.error KErr.enoent,
   fun _ => Except.error KErr.enoent, fun _ => Except.error KErr.enoent⟩

/-- A kernel oracle where a next key exists but its leaf has vanished:
next-key succeeds, the lookup reports ENOENT. -/
def iterKernelVanish : IterKernel :=
  ⟨⟨4, 4, MapType.hash⟩, Except.ok 1, Except.ok [1, 1, 1, 1],
   fun _ => Except.ok [2, 2, 2, 2], fun _ => Except.error KErr.enoent⟩

/-- A freshly created iterator (Table.Iter). -/
def iterFresh : TableIterator := ⟨none, none, []⟩

/-- An iterator in the positioned state. -/
def iterPos : TableIterator := ⟨none, some [0, 0, 0, 0], List.replicate 4 0⟩

/-- An iterator that has recorded an error. -/
def iterFailed : TableIterator :=
  ⟨some GoErr.iterationFailed, some [1, 1, 1, 1], []⟩

end Gobpf

/-- C7: not-found never surfaces as an iteration error: on a fresh
iterator whose first-key request reports ENOENT, Next returns false with
no recorded error; and on a positioned iterator whose next-key request
reports ENOENT, Next returns false with no recorded error. -/
theorem c7_notfound_clean (k : Gobpf.IterKernel)
    (it itp : Gobpf.TableIterator) (curKey : List Nat)
    (h1 : it.err = none) (h2 : it.key = none)
    (h3 : k.firstKey = Except.error Gobpf.KErr.enoent)
    (h4 : itp.err = none) (h5 : itp.key = some curKey)
    (h6 : k.nextKey curKey = Except.error Gobpf.KErr.enoent) :
    ((Gobpf.iterNext k it).1 = false ∧ (Gobpf.iterNext k it).2.1.err = none) ∧
    ((Gobpf.iterNext k itp).1 = false ∧
     (Gobpf.iterNext k itp).2.1.err = none) := by
  constructor
  · simp [Gobpf.iterNext, h1, h2, h3, Gobpf.isNotExist]
  · simp [Gobpf.iterNext, h4, h5, h6, Gobpf.isNotExist]

/-- Witness for c7_notfound_clean on the empty-map kernel oracle. -/
theorem c7_notfound_clean_witness :
    (Gobpf.iterNext Gobpf.iterKernelEmpty Gobpf.iterFresh).1 = false ∧
    (Gobpf.iterNext Gobpf.iterKernelEmpty Gobpf.iterFresh).2.1.err = none ∧
    (Gobpf.iterNext Gobpf.iterKernelEmpty Gobpf.iterPos).1 = false ∧
    (Gobpf.iterNext Gobpf.iterKernelEmpty Gobpf.iterPos).2.1.err = none := by
  have h := c7_notfound_clean Gobpf.iterKernelEmpty Gobpf.iterFresh
    Gobpf.iterPos [0, 0, 0, 0] rfl rfl rfl rfl rfl rfl
  exact ⟨h.1.1, h.1.2, h.2.1, h.2.2⟩

/-- C8: when the leaf lookup for the just-positioned key fails, Next
returns false and the iterator records a non-nil error (distinct from the
clean-exhaustion state, whose recorded error is nil), which is the
errIterationFailed sentinel when the key vanished (ENOENT); and the failed
state is absorbing: once any non-nil error is recorded, Next returns false
with the state unchanged and zero kernel calls issued. -/
theorem c8_failed_absorbing (k : Gobpf.IterKernel)
    (it it2 : Gobpf.TableIterator) (curKey nextK : List Nat)
    (e : Gobpf.KErr) (g : Gobpf.GoErr)
    (h1 : it.err = none) (h2 : it.key = some curKey)
    (h3 : k.nextKey curKey = Except.ok nextK)
    (h4 : k.lookup nextK = Except.error e) :
    ((Gobpf.iterNext k it).1 = false ∧
     (Gobpf.iterNext k it).2.1.err ≠ none ∧
     (e = Gobpf.KErr.enoent →
       (Gobpf.iterNext k it).2.1.err = some Gobpf.GoErr.iterationFailed)) ∧
    (it2.err = some g → Gobpf.iterNext k it2 = (false, it2, 0)) := by
  refine ⟨⟨?_, ?_, fun he => ?_⟩, fun h2e => ?_⟩
  · simp [Gobpf.iterNext, h1, h2, h3, Gobpf.iterLookupStep, h4]
  · simp [Gobpf.iterNext, h1, h2, h3, Gobpf.iterLookupStep, h4]
  · subst he
    simp [Gobpf.iterNext, h1, h2, h3, Gobpf.iterLookupStep, h4,
      Gobpf.isNotExist]
  · simp [Gobpf.iterNext, h2e]

/-- Witness for c8_failed_absorbing on the vanished-leaf kernel oracle and
an already-failed iterator. -/
theorem c8_failed_absorbing_witness :
    ((Gobpf.iterNext Gobpf.iterKernelVanish Gobpf.iterPos).1 = false ∧
     (Gobpf.iterNext Gobpf.iterKernelVanish Gobpf.iterPos).2.1.err =
       some Gobpf.GoErr.iterationFailed) ∧
    Gobpf.iterNext Gobpf.iterKernelVanish Gobpf.iterFailed =
      (false, Gobpf.iterFailed, 0) := by
  have h := c8_failed_absorbing Gobpf.iterKernelVanish Gobpf.iterPos
    Gobpf.iterFailed [0, 0, 0, 0] [2, 2, 2, 2] Gobpf.KErr.enoent
    Gobpf.GoErr.iterationFailed rfl rfl rfl rfl
  exact ⟨⟨h.1.1, h.1.2.2 rfl⟩, h.2 rfl⟩

namespace Gobpf

/-! ## SymbolModuleIndex: getUserSymbolsAndAddresses / matchUserSymbols

From the symbol-resolution source file.  The process-wide symbolCache is a
state value: the module → symbols map, the singleton currentModule field
the C callback appends through, and a counter of how many times the
external enumeration bcc_foreach_function_symbol has been invoked.  The
enumeration is an oracle giving, per module, the symbols it streams to the
callback and whether it reports success. -/

/-- One (name, address) pair, the symbolAddress struct. -/
structure SymbolAddress where
  name : String
  addr : Nat
deriving DecidableEq

/-- External enumeration oracle bcc_foreach_function_symbol: for a module,
the symbols delivered to the callback in order, and the success flag
(false models a negative return). -/
structure SymEnum where
  enum : String → List SymbolAddress × Bool

/-- The package-level symbolCache value plus an enumeration-call counter. -/
structure SymCacheState where
  cache : List (String × List SymbolAddress)
  currentModule : String
  scanCount : Nat

/-- Go map read cache[m] (present entries shadow older ones). -/
def cacheLookup : List (String × List SymbolAddress) → String →
    Option (List SymbolAddress)
  | [], _ => none
  | e :: rest, m => if e.1 = m then some e.2 else cacheLookup rest m

/-- Go map assignment cache[m] = v. -/
def cacheSet (c : List (String × List SymbolAddress)) (m : String)
    (v : List SymbolAddress) : List (String × List SymbolAddress) :=
  (m, v) :: c

/-- The exported C gateway foreach_symbol_callback: appends the symbol to
cache[currentModule] (a missing entry reads as nil). -/
def foreachSymbolCallback (st : SymCacheState) (s : SymbolAddress) :
    SymCacheState :=
  { st with
      cache := cacheSet st.cache st.currentModule
        ((cacheLookup st.cache st.currentModule).getD [] ++ [s]) }

/-- Embedding of bccForeachSymbol: one external enumeration call (counted)
streams its symbols through the callback; a false flag is the negative
return turned into an error by the caller. -/
def bccForeachSymbol (e : SymEnum) (module : String) (st : SymCacheState) :
    SymCacheState × Bool :=
  let r := e.enum module
  (r.1.foldl foreachSymbolCallback { st with scanCount := st.scanCount + 1 },
   r.2)

/-- Embedding of getUserSymbolsAndAddresses: under the shared lock, return
the cached list when present; otherwise reserve an empty slot for the
module, point currentModule at it, run the enumeration, and return the
slot's content on success or an error (leaving the slot cached) on
failure. -/
def getUserSymbolsAndAddresses (e : SymEnum) (module : String)
    (st : SymCacheState) :
    SymCacheState × Except String (List SymbolAddress) :=
  match cacheLookup st.cache module with
  | some l => (st, Except.ok l)
  | none =>
    let st1 : SymCacheState :=
      { st with cache := cacheSet st.cache module [],
                currentModule := module }
    let r := bccForeachSymbol e module st1
    if r.2 then
      (r.1, Except.ok ((cacheLookup r.1.cache module).getD []))
    else
      (r.1, Except.error ("unable to list symbols for " ++ module))

theorem foldl_callback_cache (l : List SymbolAddress) (st : SymCacheState)
    (v : List SymbolAddress)
    (hv : cacheLookup st.cache st.currentModule = some v) :
    (l.foldl foreachSymbolCallback st).currentModule = st.currentModule ∧
    cacheLookup (l.foldl foreachSymbolCallback st).cache st.currentModule =
      some (v ++ l) ∧
    (l.foldl foreachSymbolCallback st).scanCount = st.scanCount := by
  induction l generalizing st v with
  | nil =>
      refine ⟨rfl, ?_, rfl⟩
      simpa using hv
  | cons s l ih =>
      have hcm : (foreachSymbolCallback st s).currentModule =
          st.currentModule := rfl
      have hsc : (foreachSymbolCallback st s).scanCount = st.scanCount := rfl
      have hstep :
          cacheLookup (foreachSymbolCallback st s).cache st.currentModule =
            some (v ++ [s]) := by
        simp [foreachSymbolCallback, cacheSet, cacheLookup, hv]
      obtain ⟨h1, h2, h3⟩ := ih (foreachSymbolCallback st s) (v ++ [s])
        (by rw [hcm]; exact hstep)
      rw [hcm] at h1 h2
      rw [hsc] at h3
      refine ⟨?_, ?_, ?_⟩
      · rw [List.foldl_cons]
        exact h1
      · rw [List.foldl_cons, h2]
        simp
      · rw [List.foldl_cons]
        exact h3

/-- A cache hit returns the cached list with the state untouched. -/
theorem getUserSymbols_cached (e : SymEnum) (st : SymCacheState)
    (module : String) (l : List SymbolAddress)
    (h : cacheLookup st.cache module = some l) :
    getUserSymbolsAndAddresses e module st = (st, Except.ok l) := by
  simp [getUserSymbolsAndAddresses, h]

/-- A cache miss runs exactly one enumeration, caches whatever the
callback received, and returns it on success or an error on failure. -/
theorem getUserSymbols_fresh (e : SymEnum) (st : SymCacheState)
    (module : String) (h : cacheLookup st.cache module = none) :
    (getUserSymbolsAndAddresses e module st).1.scanCount = st.scanCount + 1 ∧
    cacheLookup (getUserSymbolsAndAddresses e module st).1.cache module =
      some (e.enum module).1 ∧
    ((e.enum module).2 = true →
      (getUserSymbolsAndAddresses e module st).2 =
        Except.ok (e.enum module).1) ∧
    ((e.enum module).2 = false →
      (getUserSymbolsAndAddresses e module st).2 =
        Except.error ("unable to list symbols for " ++ module)) := by
  have hv : cacheLookup (cacheSet st.cache module []) module = some [] := by
    simp [cacheSet, cacheLookup]
  have hfold := foldl_callback_cache (e.enum module).1
    { cache := cacheSet st.cache module [], currentModule := module,
      scanCount := st.scanCount + 1 } [] hv
  obtain ⟨hcur, hcache, hcount⟩ := hfold
  cases hflag : (e.enum module).2
  · refine ⟨?_, ?_, by simp [hflag], fun _ => ?_⟩
    · simp [getUserSymbolsAndAddresses, h, bccForeachSymbol, hflag, hcount]
    · simpa [getUserSymbolsAndAddresses, h, bccForeachSymbol, hflag]
        using hcache
    · simp [getUserSymbolsAndAddresses, h, bccForeachSymbol, hflag]
  · refine ⟨?_, ?_, fun _ => ?_, by simp [hflag]⟩
    · simp [getUserSymbolsAndAddresses, h, bccForeachSymbol, hflag, hcount]
    · simpa [getUserSymbolsAndAddresses, h, bccForeachSymbol, hflag]
        using hcache
    · have hc := hcache
      simp [getUserSymbolsAndAddresses, h, bccForeachSymbol, hflag]
      simpa using congrArg (fun o => o.getD ([] : List SymbolAddress)) hc

/-- Oracle for Go's regexp.Compile: a pattern either compiles to a
matching predicate or fails. -/
structure RegexOracle where
  compile : String → Except String (String → Bool)

/-- Embedding of matchUserSymbols: compile the pattern (an error preserves
the pattern text), resolve the module's symbols through
getUserSymbolsAndAddresses, and keep those whose name matches. -/
def matchUserSymbols (re : RegexOracle) (e : SymEnum) (module pat : String)
    (st : SymCacheState) :
    SymCacheState × Except String (List SymbolAddress) :=
  match re.compile pat with
  | Except.error err =>
      (st, Except.error ("invalid regex " ++ pat ++ " : " ++ err))
  | Except.ok r =>
    match getUserSymbolsAndAddresses e module st with
    | (st2, Except.error err) => (st2, Except.error err)
    | (st2, Except.ok syms) =>
        (st2, Except.ok (syms.filter (fun s => r s.name)))

/-- A concrete enumeration oracle: module "libc" yields two symbols,
successfully. -/
def symEnumW : SymEnum :=
  ⟨fun m => if m = "libc" then ([⟨"malloc", 100⟩, ⟨"free", 200⟩], true)
            else ([], true)⟩

/-- A concrete enumeration oracle that delivers one symbol to the callback
and then reports failure. -/
def symEnumFail : SymEnum := ⟨fun _ => ([⟨"a", 1⟩], false)⟩

/-- A concrete regex oracle: every pattern compiles to a match-everything
predicate. -/
def regexW : RegexOracle := ⟨fun _ => Except.ok (fun _ => true)⟩

/-- The empty symbol-cache state. -/
def symStateEmpty : SymCacheState := ⟨[], "", 0⟩

end Gobpf

/-- C6: a first ListSymbols call for an uncached module performs exactly
one external enumeration, and a second call for the same module returns
the cached sequence with the state — including the enumeration-call
counter — unchanged: the enumeration hook is not invoked again. -/
theorem c6_single_enumeration (e : Gobpf.SymEnum) (st : Gobpf.SymCacheState)
    (module : String)
    (h : Gobpf.cacheLookup st.cache module = none) :
    (Gobpf.getUserSymbolsAndAddresses e module st).1.scanCount =
      st.scanCount + 1 ∧
    Gobpf.getUserSymbolsAndAddresses e module
        (Gobpf.getUserSymbolsAndAddresses e module st).1 =
      ((Gobpf.getUserSymbolsAndAddresses e module st).1,
       Except.ok (e.enum module).1) := by
  obtain ⟨hcount, hcache, _, _⟩ := Gobpf.getUserSymbols_fresh e st module h
  exact ⟨hcount, Gobpf.getUserSymbols_cached e _ module _ hcache⟩

/-- Witness for c6_single_enumeration on a concrete enumeration oracle. -/
theorem c6_single_enumeration_witness :
    (Gobpf.getUserSymbolsAndAddresses Gobpf.symEnumW "libc"
        Gobpf.symStateEmpty).1.scanCount = 1 ∧
    Gobpf.getUserSymbolsAndAddresses Gobpf.symEnumW "libc"
        (Gobpf.getUserSymbolsAndAddresses Gobpf.symEnumW "libc"
          Gobpf.symStateEmpty).1 =
      ((Gobpf.getUserSymbolsAndAddresses Gobpf.symEnumW "libc"
          Gobpf.symStateEmpty).1,
       Except.ok [⟨"malloc", 100⟩, ⟨"free", 200⟩]) := by
  have h := c6_single_enumeration Gobpf.symEnumW Gobpf.symStateEmpty "libc" rfl
  refine ⟨h.1, ?_⟩
  rw [h.2]
  rfl

/-- C9: when the first enumeration for an uncached module fails, the call
returns an error but the symbols the callback received stay cached under
the module; a subsequent ListSymbols call returns that cached sequence
with no error and an unchanged state (so no re-enumeration), and a
subsequent MatchSymbols call with a compiling pattern returns the matching
subsequence of the cached sequence, also without touching the state. -/
theorem c9_failed_scan_cached (re : Gobpf.RegexOracle) (r : String → Bool)
    (pat : String) (e : Gobpf.SymEnum) (st : Gobpf.SymCacheState)
    (module : String)
    (h : Gobpf.cacheLookup st.cache module = none)
    (hfail : (e.enum module).2 = false)
    (hre : re.compile pat = Except.ok r) :
    (Gobpf.getUserSymbolsAndAddresses e module st).2 =
      Except.error ("unable to list symbols for " ++ module) ∧
    Gobpf.cacheLookup
        (Gobpf.getUserSymbolsAndAddresses e module st).1.cache module =
      some (e.enum module).1 ∧
    Gobpf.getUserSymbolsAndAddresses e module
        (Gobpf.getUserSymbolsAndAddresses e module st).1 =
      ((Gobpf.getUserSymbolsAndAddresses e module st).1,
       Except.ok (e.enum module).1) ∧
    Gobpf.matchUserSymbols re e module pat
        (Gobpf.getUserSymbolsAndAddresses e module st).1 =
      ((Gobpf.getUserSymbolsAndAddresses e module st).1,
       Except.ok ((e.enum module).1.filter (fun s => r s.name))) ∧
    (Gobpf.getUserSymbolsAndAddresses e module st).1.scanCount =
      st.scanCount + 1 := by
  obtain ⟨hcount, hcache, _, herr⟩ := Gobpf.getUserSymbols_fresh e st module h
  have hcached := Gobpf.getUserSymbols_cached e
    (Gobpf.getUserSymbolsAndAddresses e module st).1 module _ hcache
  refine ⟨herr hfail, hcache, hcached, ?_, hcount⟩
  simp [Gobpf.matchUserSymbols, hre, hcached]

/-- Witness for c9_failed_scan_cached on a failing enumeration oracle. -/
theorem c9_failed_scan_cached_witness :
    (Gobpf.getUserSymbolsAndAddresses Gobpf.symEnumFail "libm"
        Gobpf.symStateEmpty).2 =
      Except.error "unable to list symbols for libm" ∧
    Gobpf.getUserSymbolsAndAddresses Gobpf.symEnumFail "libm"
        (Gobpf.getUserSymbolsAndAddresses Gobpf.symEnumFail "libm"
          Gobpf.symStateEmpty).1 =
      ((Gobpf.getUserSymbolsAndAddresses Gobpf.symEnumFail "libm"
          Gobpf.symStateEmpty).1,
       Except.ok [⟨"a", 1⟩]) ∧
    (Gobpf.getUserSymbolsAndAddresses Gobpf.symEnumFail "libm"
        Gobpf.symStateEmpty).1.scanCount = 1 := by
  have h := c9_failed_scan_cached Gobpf.regexW (fun _ => true) "^a"
    Gobpf.symEnumFail Gobpf.symStateEmpty "libm" rfl rfl rfl
  exact ⟨h.1, h.2.2.1, h.2.2.2.2⟩
